import Mathlib

/-!
Shallow embedding of the two streamlink plugins in src/ (chzzk.py and
afreeca.py): the URL token manipulation and refresh logic of
ChzzkHLSStream, the response classification of ChzzkAPI, the playlist
fetch worker, and the AfreecaTV channel-result gate.  Strings handled by
the URL token logic are modelled as lists of characters; the Python
string primitives used by the source (str.split, str.replace, re.search)
are translated below.
-/

set_option autoImplicit false
set_option synthInstance.maxSize 512

/-- Bool test that the first list is an initial run of the second; the
prefix test used by the replace and search loops below. -/
def leadMatch : List Char → List Char → Bool
  | [], _ => true
  | _ :: _, [] => false
  | p :: ps, c :: cs => p == c && leadMatch ps cs

/-- Python substring containment, the in operator on str. -/
def containsSub (p : List Char) : List Char → Bool
  | [] => p.isEmpty
  | c :: cs => leadMatch p (c :: cs) || containsSub p cs

/-- Python str.replace with an empty pattern: the replacement is inserted
between all characters and at both ends. -/
def interleave (r : List Char) : List Char → List Char
  | [] => r
  | c :: cs => r ++ c :: interleave r cs

/-- Python str.replace for a nonempty pattern: every non-overlapping
occurrence of p, scanned left to right, is replaced by r.  The fuel
argument makes the recursion structural; pyReplace passes the length of
the scanned string, which every step strictly consumes, so the fuel
never runs out.  Only invoked with a nonempty p; pyReplace dispatches
the empty pattern to interleave. -/
def replaceAllF (p r : List Char) : Nat → List Char → List Char
  | _, [] => []
  | 0, s => s
  | fuel + 1, c :: cs =>
    if leadMatch p (c :: cs) then
      r ++ replaceAllF p r fuel (List.drop (p.length - 1) cs)
    else
      c :: replaceAllF p r fuel cs

/-- Python str.replace, as used by ChzzkHLSStream._replace_token_from. -/
def pyReplace (s p r : List Char) : List Char :=
  if p = [] then interleave r s else replaceAllF p r s.length s

/-- Python str.split over the slash character, as in
ChzzkHLSStream._get_token_from. -/
def splitSlash : List Char → List (List Char)
  | [] => [[]]
  | c :: cs =>
    if c = '/' then [] :: splitSlash cs
    else
      match splitSlash cs with
      | [] => [[c]]
      | h :: t => (c :: h) :: t

/-- Joins segments back with slashes; used only by the spec-side
comparison definition for claim C1. -/
def joinSlash : List (List Char) → List Char
  | [] => []
  | [x] => x
  | x :: xs => x ++ '/' :: joinSlash xs

/-- ChzzkHLSStream._get_token_from: path.split("/")[-2].  The none result
models the IndexError raised when the path has fewer than two
segments. -/
def getTokenFrom (path : List Char) : Option (List Char) :=
  (splitSlash path).reverse.get? 1

/-- ChzzkHLSStream._replace_token_from: extract the token from the current
url and from the freshly resolved media uri, then str.replace the old
token with the new one inside the current url. -/
def replaceTokenFrom (url mediaUri : List Char) : Option (List Char) :=
  match getTokenFrom url, getTokenFrom mediaUri with
  | some prev, some curr => some (pyReplace url prev curr)
  | _, _ => none

/-- Modelled from the spec: replace only the token path segment, the one
immediately preceding the final segment, leaving the path prefix and the
query untouched.  Comparison definition for claim C1. -/
def specReplaceToken (url newTok : List Char) : Option (List Char) :=
  let parts := splitSlash url
  if 2 ≤ parts.length then
    some (joinSlash (parts.set (parts.length - 2) newTok))
  else none

/-- Ascii decimal digit test, the \d class of the expiry regex. -/
def isDigitChar (c : Char) : Bool := '0' ≤ c && c ≤ '9'

/-- Longest leading digit run, the greedy \d+ part of the regex. -/
def takeDigits : List Char → List Char × List Char
  | [] => ([], [])
  | c :: cs =>
    if isDigitChar c then
      let p := takeDigits cs
      (c :: p.1, p.2)
    else ([], c :: cs)

/-- True when the list does not begin with a digit; delimits the greedy
digit run of the regex. -/
def headNotDigit : List Char → Bool
  | [] => true
  | c :: _ => !isDigitChar c

/-- Decimal value of a digit run: int applied to the matched group. -/
def digitsVal (ds : List Char) : Nat :=
  ds.foldl (fun a c => a * 10 + (c.toNat - 48)) 0

/-- The literal part of the expiry regex exp=(\d+). -/
def expPat : List Char := ['e', 'x', 'p', '=']

/-- Whether the regex exp= followed by at least one digit matches at the
head of s. -/
def expMatchAt (s : List Char) : Bool :=
  leadMatch expPat s &&
    (match takeDigits (List.drop 4 s) with
     | ([], _) => false
     | _ => true)

/-- re.search for exp=(\d+) in ChzzkHLSStream._expire: leftmost match,
maximal digit run, decimal value of the group. -/
def expSearch : List Char → Option Nat
  | [] => none
  | c :: cs =>
    if leadMatch expPat (c :: cs) then
      match takeDigits (List.drop 4 (c :: cs)) with
      | ([], _) => expSearch cs
      | (ds, _) => some (digitsVal ds)
    else expSearch cs

/-- ChzzkHLSStream._REFRESH_BEFORE: three hours, in seconds. -/
def refreshBefore : Nat := 3 * 60 * 60

/-- ChzzkHLSStream._should_refresh at time now: the expiry is present and
now is at or past the expiry minus the refresh window. -/
def shouldRefresh (now : Int) (url : List Char) : Bool :=
  match expSearch url with
  | some e => decide ((e : Int) - (refreshBefore : Int) ≤ now)
  | none => false

/-- JSON documents, as produced by json.loads.  Numbers are modelled as
integers: every numeric literal appearing in the validated schemas of the
source is an integer. -/
inductive Json where
  | null
  | bool (b : Bool)
  | num (n : Int)
  | str (s : String)
  | arr (elems : List Json)
  | obj (fields : List (String × Json))

/-- Key lookup in a JSON object.  Objects produced by json.loads have
unique keys, so first-match lookup agrees with the Python dict access
used by the validation pipeline. -/
def Json.lookup (fields : List (String × Json)) (key : String) : Option Json :=
  match fields with
  | [] => none
  | (k, v) :: rest => if k = key then some v else Json.lookup rest key

/-- The left and right curly brace characters. -/
def lbrace : Char := Char.ofNat 123

def rbrace : Char := Char.ofNat 125

/-- Whitespace skipping of the JSON reader. -/
def skipWs : List Char → List Char
  | [] => []
  | c :: cs =>
    if c = ' ' ∨ c = '\t' ∨ c = '\n' ∨ c = '\r' then skipWs cs
    else c :: cs

/-- Body of a JSON string literal after the opening quote: returns the
decoded characters and the remainder after the closing quote.  Models the
escape subset of json.loads needed by the source payloads; the \u escape
is not modelled and makes the parse fail. -/
def parseStringBody : List Char → Option (List Char × List Char)
  | [] => none
  | '"' :: rest => some ([], rest)
  | '\\' :: e :: rest =>
    (match e with
     | '"' => some '"'
     | '\\' => some '\\'
     | '/' => some '/'
     | 'n' => some '\n'
     | 't' => some '\t'
     | 'r' => some '\r'
     | 'b' => some (Char.ofNat 8)
     | 'f' => some (Char.ofNat 12)
     | _ => none).bind
      fun c => (parseStringBody rest).map fun (p : List Char × List Char) => (c :: p.1, p.2)
  | c :: rest => (parseStringBody rest).map fun (p : List Char × List Char) => (c :: p.1, p.2)

/-- JSON integer literal: optional minus sign then a digit run. -/
def parseNumber : List Char → Option (Int × List Char)
  | '-' :: rest =>
    (match takeDigits rest with
     | ([], _) => none
     | (ds, r) => some (-(digitsVal ds : Int), r))
  | s =>
    match takeDigits s with
    | ([], _) => none
    | (ds, r) => some ((digitsVal ds : Int), r)

/-- Intermediate result of the JSON reader: a single value, the elements
of an array, or the fields of an object. -/
inductive PRes where
  | val (j : Json)
  | arrItems (js : List Json)
  | objItems (fs : List (String × Json))

/-- Recursive-descent JSON reader with explicit fuel, structural on the
fuel so that it evaluates; models json.loads on the integer subset of
JSON used by the source.  mode 0 reads one value, mode 1 the elements of
a nonempty array, mode 2 the fields of a nonempty object. -/
def parseF : Nat → Nat → List Char → Option (PRes × List Char)
  | 0, _, _ => none
  | fuel + 1, mode, s =>
    if mode = 0 then
      match skipWs s with
      | 'n' :: 'u' :: 'l' :: 'l' :: r => some (PRes.val Json.null, r)
      | 't' :: 'r' :: 'u' :: 'e' :: r => some (PRes.val (Json.bool true), r)
      | 'f' :: 'a' :: 'l' :: 's' :: 'e' :: r => some (PRes.val (Json.bool false), r)
      | '"' :: r => (parseStringBody r).map fun p => (PRes.val (Json.str (String.mk p.1)), p.2)
      | '[' :: r =>
        (match skipWs r with
         | ']' :: r2 => some (PRes.val (Json.arr []), r2)
         | r2 =>
           (parseF fuel 1 r2).bind fun p =>
             match p.1 with
             | PRes.arrItems js => some (PRes.val (Json.arr js), p.2)
             | _ => none)
      | c :: r =>
        if c = lbrace then
          match skipWs r with
          | c2 :: r2 =>
            if c2 = rbrace then some (PRes.val (Json.obj []), r2)
            else
              (parseF fuel 2 (c2 :: r2)).bind fun p =>
                match p.1 with
                | PRes.objItems fs => some (PRes.val (Json.obj fs), p.2)
                | _ => none
          | [] => none
        else (parseNumber (c :: r)).map fun p => (PRes.val (Json.num p.1), p.2)
      | [] => none
    else if mode = 1 then
      (parseF fuel 0 s).bind fun p =>
        match p.1 with
        | PRes.val v =>
          (match skipWs p.2 with
           | ',' :: r2 =>
             (parseF fuel 1 (skipWs r2)).bind fun q =>
               match q.1 with
               | PRes.arrItems js => some (PRes.arrItems (v :: js), q.2)
               | _ => none
           | ']' :: r2 => some (PRes.arrItems [v], r2)
           | _ => none)
        | _ => none
    else
      match skipWs s with
      | '"' :: r =>
        match parseStringBody r with
        | none => none
        | some (k, r2) =>
          match skipWs r2 with
          | ':' :: r3 =>
            (parseF fuel 0 (skipWs r3)).bind fun p =>
              match p.1 with
              | PRes.val v =>
                (match skipWs p.2 with
                 | ',' :: r5 =>
                   (parseF fuel 2 r5).bind fun q =>
                     match q.1 with
                     | PRes.objItems fs => some (PRes.objItems ((String.mk k, v) :: fs), q.2)
                     | _ => none
                 | c :: r5 =>
                   if c = rbrace then some (PRes.objItems [(String.mk k, v)], r5)
                   else none
                 | [] => none)
              | _ => none
          | _ => none
      | _ => none

/-- validate.parse_json applied to a string field: the whole input must be
consumed, up to trailing whitespace. -/
def parseJsonStr (s : String) : Option Json :=
  match parseF (4 * s.length + 16) 0 s.data with
  | some (PRes.val v, rest) => if skipWs rest = [] then some v else none
  | _ => none

/-- Tagged outcome of ChzzkAPI._query_api: the three alternatives of the
validate.any envelope, in source order.  error carries the message field,
emptySuccess is code 200 with null content, dataSuccess carries the
payload projected by the endpoint schemas. -/
inductive ApiOutcome (α : Type) where
  | error (message : String)
  | emptySuccess
  | dataSuccess (payload : α)
deriving DecidableEq

/-- First alternative of the envelope: the error shape with a code of int
type and a message of str type; keys not named in the schema are
ignored.  Returns the message on a match. -/
def matchErrorShape (j : Json) : Option String :=
  match j with
  | Json.obj fs =>
    match Json.lookup fs "code", Json.lookup fs "message" with
    | some (Json.num _), some (Json.str m) => some m
    | _, _ => none
  | _ => none

/-- Second alternative of the envelope: code equal to the literal 200 and
content equal to null. -/
def matchEmptySuccess (j : Json) : Bool :=
  match j with
  | Json.obj fs =>
    (match Json.lookup fs "code" with
     | some (Json.num n) => n == 200
     | _ => false)
    && (match Json.lookup fs "content" with
        | some Json.null => true
        | _ => false)
  | _ => false

/-- ChzzkAPI._query_api envelope classification: the validate.any tries
the error shape, then the empty-success shape, then the data-success
shape whose content is handed to the endpoint schema; the first
structural match wins and a failure of all three is a schema mismatch,
modelled as none. -/
def classify {α : Type} (contentSchema : Json → Option α) (j : Json) : Option (ApiOutcome α) :=
  match matchErrorShape j with
  | some m => some (ApiOutcome.error m)
  | none =>
    if matchEmptySuccess j then some ApiOutcome.emptySuccess
    else
      match j with
      | Json.obj fs =>
        match Json.lookup fs "code", Json.lookup fs "content" with
        | some (Json.num 200), some (Json.obj cf) =>
          (contentSchema (Json.obj cf)).map ApiOutcome.dataSuccess
        | _, _ => none
      | _ => none

/-- Modelled from the spec: streamlink validate.url() lives outside src;
per the external-interface section a media path is a URL with a scheme
and a host, approximated as a nonempty scheme followed by the separator
and a nonempty remainder. -/
def urlCheck (scheme : List Char) : List Char → Bool
  | ':' :: '/' :: '/' :: rest => !scheme.isEmpty && !rest.isEmpty
  | c :: cs => urlCheck (scheme ++ [c]) cs
  | [] => false

def isValidUrl (s : String) : Bool :=
  urlCheck [] s.data

/-- validate.any(str, None) as used for liveTitle and liveCategory. -/
def validateStrOrNull : Json → Option (Option String)
  | Json.str s => some (some s)
  | Json.null => some none
  | _ => none

/-- The channel sub-schema: an object with a channelName of str type,
projected to that name. -/
def validateChannel : Json → Option String
  | Json.obj fs =>
    (match Json.lookup fs "channelName" with
     | some (Json.str n) => some n
     | _ => none)
  | _ => none

/-- One media descriptor: mediaId, protocol and path, projected by
validate.union_get into a triple in that order; the path must be a
URL. -/
def validateMediaItem : Json → Option (String × String × String)
  | Json.obj fs =>
    (match Json.lookup fs "mediaId", Json.lookup fs "protocol", Json.lookup fs "path" with
     | some (Json.str mid), some (Json.str proto), some (Json.str path) =>
       if isValidUrl path then some (mid, proto, path) else none
     | _, _, _ => none)
  | _ => none

/-- Resolved media descriptors: (mediaId, protocol, path) triples. -/
abbrev MediaList := List (String × String × String)

/-- validate.none_or_all(str, parse_json, media schema, get media) for the
livePlaybackJson field: null passes through as none, a string must parse
as JSON to an object whose media key is a list of valid descriptors. -/
def validatePlayback : Json → Option (Option MediaList)
  | Json.null => some none
  | Json.str s =>
    (match parseJsonStr s with
     | some (Json.obj fs) =>
       match Json.lookup fs "media" with
       | some (Json.arr items) => (items.mapM validateMediaItem).map some
       | _ => none
     | _ => none)
  | _ => none

/-- Payload tuple of get_live_detail in the declared union_get order:
livePlaybackJson media list, status, liveId, channel name, liveCategory,
liveTitle, adult. -/
abbrev LiveDetailPayload :=
  Option MediaList × String × Int × String × Option String × Option String × Bool

instance : DecidableEq LiveDetailPayload := inferInstance

/-- Content schema of ChzzkAPI.get_live_detail: the seven required fields
validated by their sub-schemas, projected by validate.union_get into the
declared output order. -/
def liveDetailContentSchema (j : Json) : Option LiveDetailPayload :=
  match j with
  | Json.obj cf =>
    match Json.lookup cf "status", Json.lookup cf "liveId", Json.lookup cf "liveTitle",
        Json.lookup cf "liveCategory", Json.lookup cf "adult", Json.lookup cf "channel",
        Json.lookup cf "livePlaybackJson" with
    | some (Json.str status), some (Json.num liveId), some titleJ, some categoryJ,
        some (Json.bool adult), some channelJ, some playbackJ =>
      (match validateStrOrNull titleJ, validateStrOrNull categoryJ,
          validateChannel channelJ, validatePlayback playbackJ with
       | some liveTitle, some liveCategory, some channelName, some media =>
         some (media, status, liveId, channelName, liveCategory, liveTitle, adult)
       | _, _, _, _ => none)
    | _, _, _, _, _, _, _ => none
  | _ => none

/-- ChzzkAPI.get_live_detail applied to an already parsed response
body. -/
def getLiveDetail (j : Json) : Option (ApiOutcome LiveDetailPayload) :=
  classify liveDetailContentSchema j

/-- Exceptions that can escape ChzzkHLSStream.refresh_playlist. -/
inductive RefreshError where
  | streamError (msg : String)
  | unpackNone
  | tokenIndexError
deriving DecidableEq

/-- The fixed message of the stream error raised for a closed or
media-less live session. -/
def refreshErrMsg : String := "Error occurred while refreshing the stream URL."

/-- The loop of refresh_playlist: the first descriptor whose protocol and
id both equal HLS. -/
def findHLS (ms : MediaList) : Option (String × String × String) :=
  ms.find? fun m => m.2.1 == "HLS" && m.1 == "HLS"

/-- ChzzkHLSStream.refresh_playlist as a function of the live-detail
outcome.  resolve stands for _get_media_uri, the network fetch of the
variant playlist and projection to its first nested uri.  An error result
models a raised exception, in which case the stored url was not
touched: unpackNone is the TypeError of unpacking a None payload and
tokenIndexError the IndexError of a token-less path. -/
def refreshPlaylist (url : List Char) (api : ApiOutcome LiveDetailPayload)
    (resolve : String → List Char) : Except RefreshError (List Char) :=
  match api with
  | ApiOutcome.error msg => Except.error (RefreshError.streamError msg)
  | ApiOutcome.emptySuccess => Except.error RefreshError.unpackNone
  | ApiOutcome.dataSuccess (media, status, _, _, _, _, _) =>
    if status ≠ "OPEN" ∨ media = none then
      Except.error (RefreshError.streamError refreshErrMsg)
    else
      match media with
      | some ms =>
        (match findHLS ms with
         | none => Except.ok url
         | some m =>
           match replaceTokenFrom url (resolve m.2.2) with
           | some u => Except.ok u
           | none => Except.error RefreshError.tokenIndexError)
      | none => Except.error (RefreshError.streamError refreshErrMsg)

/-- The url stored on the handle after a refresh attempt: the new url on
success, the unchanged old url when the refresh raised. -/
def refreshResultUrl (url : List Char) (api : ApiOutcome LiveDetailPayload)
    (resolve : String → List Char) : List Char :=
  match refreshPlaylist url api resolve with
  | Except.ok u => u
  | Except.error _ => url

/-- The ChzzkHLSStream.url property: refresh synchronously when inside
the expiry window, then return the stored url; a raising refresh
propagates to the caller. -/
def urlAccessor (now : Int) (url : List Char) (api : ApiOutcome LiveDetailPayload)
    (resolve : String → List Char) : Except RefreshError (List Char) :=
  if shouldRefresh now url then refreshPlaylist url api resolve
  else Except.ok url

/-- Modelled from the spec: the StreamError raised by the base fetch of
HLSStreamWorker lives outside src; per the spec it wraps a transport
error that may or may not carry an HTTP status code. -/
structure StreamErrInfo where
  httpStatus : Option Nat
  msg : String
deriving DecidableEq

/-- What ChzzkHLSStreamWorker._fetch_playlist lets escape: the original
stream error re-raised, or the error of a failing refresh. -/
inductive WorkerError where
  | stream (e : StreamErrInfo)
  | refreshFailed (e : RefreshError)
deriving DecidableEq

/-- ChzzkHLSStreamWorker._fetch_playlist: on a base fetch failure whose
status is at least 400, invoke refresh_playlist, then re-raise the
original error; a raising refresh propagates instead.  The second
component counts the refresh invocations. -/
def workerFetchPlaylist {π : Type} (base : Except StreamErrInfo π)
    (refresh : Except RefreshError Unit) : Except WorkerError π × Nat :=
  match base with
  | Except.ok p => (Except.ok p, 0)
  | Except.error e =>
    match e.httpStatus with
    | some st =>
      if 400 ≤ st then
        match refresh with
        | Except.ok _ => (Except.error (WorkerError.stream e), 1)
        | Except.error r => (Except.error (WorkerError.refreshFailed r), 1)
      else (Except.error (WorkerError.stream e), 0)
    | none => (Except.error (WorkerError.stream e), 0)

/-- One HLS segment, reduced to the uri the filter inspects. -/
structure Segment where
  uri : String

/-- AfreecaHLSStreamWriter.should_filter_segment: filter when the uri
contains the substring preloading, otherwise defer to the base writer
decision. -/
def shouldFilterSegment (base : Segment → Bool) (s : Segment) : Bool :=
  containsSub "preloading".data s.uri.data || base s

/-- The CHANNEL record of the afreeca channel API after schema
validation: RESULT transformed to int, the remaining keys optional.
VIEWPRESET entries are (label, name) pairs. -/
structure ChannelInfo where
  RESULT : Int
  BPWD : Option String
  BNO : Option String
  RMD : Option String
  AID : Option String
  BJNICK : Option String
  TITLE : Option String
  VIEWPRESET : Option (List (String × String))
deriving DecidableEq

/-- Python truthiness of an optional string: present and nonempty. -/
def truthy : Option String → Bool
  | none => false
  | some s => !(s = "")

/-- Observable outcome of the channel-processing tail of
AfreecaTV._get_streams: a logged error message with no stream, a silent
empty return, a stream map, or the TypeError of iterating a missing
VIEWPRESET. -/
inductive AfreecaOutcome where
  | errorMsg (msg : String)
  | noResult
  | streams (ss : List (String × String))
  | crash
deriving DecidableEq

/-- AfreecaTV._get_streams from the channel-info call on: the RESULT
gate, the broadcast/rmd truthiness gate, the VIEWPRESET loop with the
auto preset skipped and failed resolutions dropped, and the
password-protection message.  getHls stands for _get_hls_stream per
quality name, returning the resolved stream handle identifier. -/
def afreecaChannelStreams (c : ChannelInfo) (getHls : String → Option String) :
    AfreecaOutcome :=
  if c.RESULT = -6 then AfreecaOutcome.errorMsg "Login required"
  else if c.RESULT ≠ 1 then AfreecaOutcome.noResult
  else if ¬ (truthy c.BNO && truthy c.RMD) then AfreecaOutcome.noResult
  else
    match c.VIEWPRESET with
    | none => AfreecaOutcome.crash
    | some presets =>
      let ss := presets.filterMap fun lp =>
        if lp.2 = "auto" then none
        else (getHls lp.2).map fun h => (lp.1, h)
      if ss = [] ∧ c.BPWD = some "Y" then
        AfreecaOutcome.errorMsg "Stream is password protected"
      else AfreecaOutcome.streams ss

/-- The mutable metadata fields of the plugin touched by the code around
the early return: the broadcast start time and the log of error
messages. -/
structure AfState where
  broadcastStart : Option String
  errors : List String
deriving DecidableEq

/-- An early function return carrying the state at that point and the
returned value. -/
abbrev EarlyRet := AfState × AfreecaOutcome

/-- The dead bstart_time re-extraction block of AfreecaTV._get_streams,
translated on its own: re-search the page text for the start time, log
and return on a miss, store the parsed time otherwise.  reMatch stands
for the regex search result. -/
def deadBstartBlock (reMatch : Option String) (st : AfState) : Except EarlyRet AfState :=
  match reMatch with
  | none =>
    Except.error
      ({ st with errors := st.errors ++ ["Could not find broadcast start time."] },
        AfreecaOutcome.noResult)
  | some t => Except.ok { st with broadcastStart := some t }

/-- AfreecaTV._get_streams from the live_check_only test on.  An early
return is Except.error; inside the live-check branch the dead block is
sequenced after the return statement, exactly as in the source, so the
bind discards it.  The dead block is a parameter so that independence
from it is expressible. -/
def getStreamsTail (dead : AfState → Except EarlyRet AfState) (liveCheckOnly : Bool)
    (c : ChannelInfo) (getHls : String → Option String) (st : AfState) : EarlyRet :=
  let gate : Except EarlyRet AfState :=
    if liveCheckOnly then
      (Except.error (st, AfreecaOutcome.noResult) : Except EarlyRet AfState).bind
        fun st2 => dead st2
    else Except.ok st
  match gate with
  | Except.error r => r
  | Except.ok st2 => (st2, afreecaChannelStreams c getHls)


/-- The replace scan keeps a string without any occurrence of the pattern
unchanged, for every fuel. -/
theorem leadMatch_self_append : ∀ (p t : List Char), leadMatch p (p ++ t) = true := by
  intro p t
  induction p with
  | nil => rfl
  | cons a ps ih => simp [leadMatch, ih]

theorem leadMatch_append_drop : ∀ (p s : List Char), leadMatch p s = true →
    p ++ List.drop p.length s = s := by
  intro p
  induction p with
  | nil => intro s _; simp
  | cons a ps ih =>
    intro s h
    cases s with
    | nil => simp [leadMatch] at h
    | cons c cs =>
      simp only [leadMatch, Bool.and_eq_true, beq_iff_eq] at h
      obtain ⟨rfl, h2⟩ := h
      simp [List.drop_succ_cons, ih cs h2]

theorem dropAppendLen : ∀ (xs ys : List Char), List.drop xs.length (xs ++ ys) = ys := by
  intro xs ys
  induction xs with
  | nil => rfl
  | cons a l ih => simp [ih]

theorem interleave_nil : ∀ (s : List Char), interleave [] s = s := by
  intro s
  induction s with
  | nil => rfl
  | cons c cs ih => simp [interleave, ih]


theorem replaceAllF_id (p : List Char) (hp : p ≠ []) :
    ∀ fuel s, replaceAllF p p fuel s = s := by
  intro fuel
  induction fuel with
  | zero => intro s; cases s <;> rfl
  | succ f ih =>
    intro s
    cases s with
    | nil => rfl
    | cons c cs =>
      simp only [replaceAllF]
      by_cases h : leadMatch p (c :: cs) = true
      · rw [if_pos h, ih]
        obtain ⟨a, ps, rfl⟩ : ∃ a ps, p = a :: ps := by
          cases p with
          | nil => exact absurd rfl hp
          | cons a ps => exact ⟨a, ps, rfl⟩
        have h2 := leadMatch_append_drop (a :: ps) (c :: cs) h
        simpa using h2
      · rw [if_neg h, ih]

theorem pyReplace_id (s p : List Char) : pyReplace s p p = s := by
  unfold pyReplace
  by_cases hp : p = []
  · rw [if_pos hp, hp, interleave_nil]
  · rw [if_neg hp, replaceAllF_id p hp]

theorem replaceAllF_not_contained (p r : List Char) :
    ∀ fuel s, containsSub p s = false → replaceAllF p r fuel s = s := by
  intro fuel
  induction fuel with
  | zero => intro s _; cases s <;> rfl
  | succ f ih =>
    intro s h
    cases s with
    | nil => rfl
    | cons c cs =>
      simp only [containsSub, Bool.or_eq_false_iff] at h
      simp only [replaceAllF]
      rw [if_neg (by simp [h.1]), ih cs h.2]

theorem replaceAllF_single (p r : List Char) (hp : p ≠ []) :
    ∀ pre fuel suf, (pre ++ (p ++ suf)).length ≤ fuel →
      (∀ k, k < pre.length → leadMatch p (List.drop k (pre ++ (p ++ suf))) = false) →
      containsSub p suf = false →
      replaceAllF p r fuel (pre ++ (p ++ suf)) = pre ++ (r ++ suf) := by
  intro pre
  induction pre with
  | nil =>
    intro fuel suf hfuel _ hsuf
    obtain ⟨a, ps, rfl⟩ : ∃ a ps, p = a :: ps := by
      cases p with
      | nil => exact absurd rfl hp
      | cons a ps => exact ⟨a, ps, rfl⟩
    cases fuel with
    | zero =>
      simp only [List.nil_append, List.length_append, List.length_cons] at hfuel
      omega
    | succ f =>
      have hdrop : List.drop ((a :: ps).length - 1) (ps ++ suf) = suf := by
        simp [dropAppendLen ps suf]
      simp only [List.nil_append, List.cons_append, replaceAllF, List.append_eq]
      rw [if_pos (show leadMatch (a :: ps) (a :: (ps ++ suf)) = true by
        simpa using leadMatch_self_append (a :: ps) suf)]
      rw [hdrop, replaceAllF_not_contained (a :: ps) r f suf hsuf]
  | cons a pre2 ih =>
    intro fuel suf hfuel hfirst hsuf
    cases fuel with
    | zero =>
      simp only [List.cons_append, List.length_append, List.length_cons] at hfuel
      omega
    | succ f =>
      have h0 : leadMatch p (a :: (pre2 ++ (p ++ suf))) = false := by
        simpa using hfirst 0 (by simp)
      simp only [List.cons_append, replaceAllF, List.append_eq]
      rw [if_neg (by simp [h0])]
      have hrest : ∀ k, k < pre2.length → leadMatch p (List.drop k (pre2 ++ (p ++ suf))) = false := by
        intro k hk
        have h1 := hfirst (k + 1) (by simp [Nat.succ_lt_succ hk])
        simpa using h1
      have hfuel2 : (pre2 ++ (p ++ suf)).length ≤ f := by
        simp only [List.cons_append, List.length_cons] at hfuel
        omega
      rw [ih f suf hfuel2 hrest hsuf]

theorem pyReplace_single (p r pre suf : List Char) (hp : p ≠ [])
    (hfirst : ∀ k, k < pre.length → leadMatch p (List.drop k (pre ++ (p ++ suf))) = false)
    (hsuf : containsSub p suf = false) :
    pyReplace (pre ++ (p ++ suf)) p r = pre ++ (r ++ suf) := by
  unfold pyReplace
  rw [if_neg hp]
  exact replaceAllF_single p r hp pre (pre ++ (p ++ suf)).length suf le_rfl hfirst hsuf

theorem takeDigits_append : ∀ (ds rest : List Char),
    (∀ c, c ∈ ds → isDigitChar c = true) → headNotDigit rest = true →
    takeDigits (ds ++ rest) = (ds, rest) := by
  intro ds
  induction ds with
  | nil =>
    intro rest _ hrest
    cases rest with
    | nil => rfl
    | cons c cs =>
      simp only [headNotDigit, Bool.not_eq_eq_eq_not, Bool.not_true] at hrest
      simp [takeDigits, hrest]
  | cons d ds2 ih =>
    intro rest hds hrest
    have hd : isDigitChar d = true := hds d (by simp)
    simp [takeDigits, hd, ih rest (fun c hc => hds c (by simp [hc])) hrest]

theorem expSearch_cons_skip (c : Char) (cs : List Char) (h : expMatchAt (c :: cs) = false) :
    expSearch (c :: cs) = expSearch cs := by
  rw [expSearch]
  by_cases hl : leadMatch expPat (c :: cs) = true
  · rw [if_pos hl]
    rcases htd : takeDigits (List.drop 4 (c :: cs)) with ⟨ds, rem⟩
    cases ds with
    | nil => rfl
    | cons d ds2 =>
      exfalso
      unfold expMatchAt at h
      rw [hl, htd] at h
      simp at h
  · rw [if_neg hl]

theorem expSearch_head (s ds rem : List Char) (hne : s ≠ [])
    (hl : leadMatch expPat s = true)
    (htd : takeDigits (List.drop 4 s) = (ds, rem)) (hds : ds ≠ []) :
    expSearch s = some (digitsVal ds) := by
  cases s with
  | nil => exact absurd rfl hne
  | cons c cs =>
    unfold expSearch
    rw [if_pos hl, htd]
    cases ds with
    | nil => exact absurd rfl hds
    | cons d ds2 => rfl

theorem expSearch_at : ∀ (pre ds rest : List Char),
    ds ≠ [] → (∀ c, c ∈ ds → isDigitChar c = true) → headNotDigit rest = true →
    (∀ k, k < pre.length → expMatchAt (List.drop k (pre ++ (expPat ++ (ds ++ rest)))) = false) →
    expSearch (pre ++ (expPat ++ (ds ++ rest))) = some (digitsVal ds) := by
  intro pre
  induction pre with
  | nil =>
    intro ds rest hds hdig hrest _
    apply expSearch_head _ ds rest
    · simp [expPat]
    · simpa [expPat] using leadMatch_self_append expPat (ds ++ rest)
    · have h4 : List.drop 4 ([] ++ (expPat ++ (ds ++ rest))) = ds ++ rest := rfl
      rw [h4]
      exact takeDigits_append ds rest hdig hrest
    · exact hds
  | cons a pre2 ih =>
    intro ds rest hds hdig hrest hfirst
    have h0 : expMatchAt (a :: (pre2 ++ (expPat ++ (ds ++ rest)))) = false := by
      simpa using hfirst 0 (by simp)
    have hskip := expSearch_cons_skip a (pre2 ++ (expPat ++ (ds ++ rest))) h0
    have hrec : ∀ k, k < pre2.length →
        expMatchAt (List.drop k (pre2 ++ (expPat ++ (ds ++ rest)))) = false := by
      intro k hk
      have h1 := hfirst (k + 1) (by simp [Nat.succ_lt_succ hk])
      simpa using h1
    calc expSearch ((a :: pre2) ++ (expPat ++ (ds ++ rest)))
        = expSearch (a :: (pre2 ++ (expPat ++ (ds ++ rest)))) := by simp
      _ = expSearch (pre2 ++ (expPat ++ (ds ++ rest))) := hskip
      _ = some (digitsVal ds) := ih ds rest hds hdig hrest hrec

/-- C1 counterexample: the claim that refresh only replaces the token
substring fails.  For current url https://h/abc/f?x=abc the token is abc
and for the reference uri https://h/zzz/f the token is zzz, but
str.replace rewrites every occurrence of abc, so the unrelated query
parameter x changes too, unlike the spec-side replacement of only the
token path segment. -/
theorem C1_token_replace_counterexample :
    getTokenFrom "https://h/abc/f?x=abc".data = some "abc".data ∧
    getTokenFrom "https://h/zzz/f".data = some "zzz".data ∧
    specReplaceToken "https://h/abc/f?x=abc".data "zzz".data
      = some "https://h/zzz/f?x=abc".data ∧
    replaceTokenFrom "https://h/abc/f?x=abc".data "https://h/zzz/f".data
      = some "https://h/zzz/f?x=zzz".data ∧
    ("https://h/zzz/f?x=zzz".data : List Char) ≠ "https://h/zzz/f?x=abc".data := by
  decide

/-- C1 (amended): refresh replaces every occurrence of the old token in
the current url.  When the old token occurs exactly once, namely as the
token path segment, and nowhere else in the url, the refresh rewrites
only that segment, leaving the path prefix and the query untouched, and
a second refresh against the same reference uri leaves the url
unchanged. -/
theorem C1_token_replace (pre prev suf curr mediaUri : List Char)
    (hprev : prev ≠ [])
    (hfirst : ∀ k, k < pre.length → leadMatch prev (List.drop k (pre ++ (prev ++ suf))) = false)
    (hsuf : containsSub prev suf = false)
    (htokOld : getTokenFrom (pre ++ (prev ++ suf)) = some prev)
    (htokNew : getTokenFrom mediaUri = some curr)
    (htokUpd : getTokenFrom (pre ++ (curr ++ suf)) = some curr) :
    replaceTokenFrom (pre ++ (prev ++ suf)) mediaUri = some (pre ++ (curr ++ suf)) ∧
    replaceTokenFrom (pre ++ (curr ++ suf)) mediaUri = some (pre ++ (curr ++ suf)) := by
  constructor
  · unfold replaceTokenFrom
    rw [htokOld, htokNew]
    show some (pyReplace (pre ++ (prev ++ suf)) prev curr) = some (pre ++ (curr ++ suf))
    rw [pyReplace_single prev curr pre suf hprev hfirst hsuf]
  · unfold replaceTokenFrom
    rw [htokUpd, htokNew]
    show some (pyReplace (pre ++ (curr ++ suf)) curr curr) = some (pre ++ (curr ++ suf))
    rw [pyReplace_id]

theorem C1_token_replace_witness :
    replaceTokenFrom ("https://h/".data ++ ("abc".data ++ "/f".data)) "https://h/zzz/f".data
      = some ("https://h/".data ++ ("zzz".data ++ "/f".data)) ∧
    replaceTokenFrom ("https://h/".data ++ ("zzz".data ++ "/f".data)) "https://h/zzz/f".data
      = some ("https://h/".data ++ ("zzz".data ++ "/f".data)) :=
  C1_token_replace "https://h/".data "abc".data "/f".data "zzz".data "https://h/zzz/f".data
    (by decide) (by decide) (by decide) (by decide) (by decide) (by decide)

/-- C2: every response matching the error shape, a code of int type and a
message of str type, classifies as the error outcome carrying exactly
that message, whatever other keys are present, because the error shape
is the first alternative tried. -/
theorem C2_error_shape_first (α : Type) (contentSchema : Json → Option α)
    (fields : List (String × Json)) (n : Int) (msg : String)
    (hcode : Json.lookup fields "code" = some (Json.num n))
    (hmsg : Json.lookup fields "message" = some (Json.str msg)) :
    classify contentSchema (Json.obj fields) = some (ApiOutcome.error msg) := by
  have hshape : matchErrorShape (Json.obj fields) = some msg := by
    simp [matchErrorShape, hcode, hmsg]
  simp [classify, hshape]

theorem C2_error_shape_first_witness :
    classify liveDetailContentSchema (Json.obj
      [("code", Json.num 200), ("message", Json.str "INTERNAL"), ("content", Json.null),
        ("extraKey", Json.bool true)])
      = some (ApiOutcome.error "INTERNAL") :=
  C2_error_shape_first LiveDetailPayload liveDetailContentSchema
    [("code", Json.num 200), ("message", Json.str "INTERNAL"), ("content", Json.null),
      ("extraKey", Json.bool true)] 200 "INTERNAL" rfl rfl

/-- C3: for a response with code 200 that does not match the error shape,
a null content classifies as the empty success and an object content
satisfying the live-detail field schema classifies as the data success
whose payload tuple lists the validated fields in the declared
union_get order: livePlaybackJson media, status, liveId, channel name,
liveCategory, liveTitle, adult.  The result depends only on the key
lookups, not on the key order of the source object, and repeated
classification of the same input gives the same result. -/
theorem C3_success_classification (fields : List (String × Json))
    (hcode : Json.lookup fields "code" = some (Json.num 200))
    (hnoerr : matchErrorShape (Json.obj fields) = none) :
    (Json.lookup fields "content" = some Json.null →
      classify liveDetailContentSchema (Json.obj fields) = some ApiOutcome.emptySuccess) ∧
    (∀ cf titleJ categoryJ channelJ playbackJ media status lid chName cat title adult,
      Json.lookup fields "content" = some (Json.obj cf) →
      Json.lookup cf "status" = some (Json.str status) →
      Json.lookup cf "liveId" = some (Json.num lid) →
      Json.lookup cf "liveTitle" = some titleJ →
      Json.lookup cf "liveCategory" = some categoryJ →
      Json.lookup cf "adult" = some (Json.bool adult) →
      Json.lookup cf "channel" = some channelJ →
      Json.lookup cf "livePlaybackJson" = some playbackJ →
      validateStrOrNull titleJ = some title →
      validateStrOrNull categoryJ = some cat →
      validateChannel channelJ = some chName →
      validatePlayback playbackJ = some media →
      classify liveDetailContentSchema (Json.obj fields)
        = some (ApiOutcome.dataSuccess (media, status, lid, chName, cat, title, adult))) ∧
    (∀ fields2, (∀ k, Json.lookup fields2 k = Json.lookup fields k) →
      classify liveDetailContentSchema (Json.obj fields2)
        = classify liveDetailContentSchema (Json.obj fields)) ∧
    classify liveDetailContentSchema (Json.obj fields)
      = classify liveDetailContentSchema (Json.obj fields) := by
  refine ⟨?_, ?_, ?_, rfl⟩
  · intro hnull
    have hempty : matchEmptySuccess (Json.obj fields) = true := by
      simp [matchEmptySuccess, hcode, hnull]
    simp [classify, hnoerr, hempty]
  · intro cf titleJ categoryJ channelJ playbackJ media status lid chName cat title adult
      hcontent hs hl ht hc ha hch hp htv hcv hchv hpv
    have hempty : matchEmptySuccess (Json.obj fields) = false := by
      simp [matchEmptySuccess, hcode, hcontent]
    have hschema : liveDetailContentSchema (Json.obj cf)
        = some (media, status, lid, chName, cat, title, adult) := by
      simp [liveDetailContentSchema, hs, hl, ht, hc, ha, hch, hp, htv, hcv, hchv, hpv]
    simp [classify, hnoerr, hempty, hcode, hcontent, hschema]
  · intro fields2 hk
    simp only [classify, matchErrorShape, matchEmptySuccess, hk]

theorem C3_success_classification_witness :
    classify liveDetailContentSchema (Json.obj
      [("code", Json.num 200),
        ("content", Json.obj
          [("status", Json.str "OPEN"), ("liveId", Json.num 5),
            ("liveTitle", Json.str "t"), ("liveCategory", Json.str "c"),
            ("adult", Json.bool false),
            ("channel", Json.obj [("channelName", Json.str "n")]),
            ("livePlaybackJson", Json.str "\x7b\"media\":[\x7b\"mediaId\":\"HLS\",\"protocol\":\"HLS\",\"path\":\"https://x/hls.m3u8\"\x7d]\x7d")])])
      = some (ApiOutcome.dataSuccess
          (some [("HLS", "HLS", "https://x/hls.m3u8")], "OPEN", 5, "n", some "c", some "t",
            false)) := by
  exact (C3_success_classification
      [("code", Json.num 200),
        ("content", Json.obj
          [("status", Json.str "OPEN"), ("liveId", Json.num 5),
            ("liveTitle", Json.str "t"), ("liveCategory", Json.str "c"),
            ("adult", Json.bool false),
            ("channel", Json.obj [("channelName", Json.str "n")]),
            ("livePlaybackJson", Json.str "\x7b\"media\":[\x7b\"mediaId\":\"HLS\",\"protocol\":\"HLS\",\"path\":\"https://x/hls.m3u8\"\x7d]\x7d")])]
      rfl rfl).2.1 _ _ _ _ _
    (some [("HLS", "HLS", "https://x/hls.m3u8")]) "OPEN" 5 "n" (some "c") (some "t") false
    rfl rfl rfl rfl rfl rfl rfl rfl rfl rfl rfl (by decide)

/-- C4: when the base playlist fetch raises a stream error whose
transport failure carries an HTTP status of at least 400, the worker
invokes refresh exactly once and then re-raises the original error; when
the refresh itself raises, that error propagates instead of the
original; a status below 400 or a missing status propagates the original
error unchanged with no refresh. -/
theorem C4_worker_refresh_on_http_error (π : Type) (e : StreamErrInfo)
    (refresh : Except RefreshError Unit) :
    (∀ st, e.httpStatus = some st → 400 ≤ st →
      workerFetchPlaylist (Except.error e : Except StreamErrInfo π) refresh =
        (match refresh with
         | Except.ok _ => (Except.error (WorkerError.stream e), 1)
         | Except.error r => (Except.error (WorkerError.refreshFailed r), 1))) ∧
    (∀ st, e.httpStatus = some st → st < 400 →
      workerFetchPlaylist (Except.error e : Except StreamErrInfo π) refresh
        = (Except.error (WorkerError.stream e), 0)) ∧
    (e.httpStatus = none →
      workerFetchPlaylist (Except.error e : Except StreamErrInfo π) refresh
        = (Except.error (WorkerError.stream e), 0)) := by
  refine ⟨?_, ?_, ?_⟩
  · intro st hst h4
    simp only [workerFetchPlaylist, hst]
    rw [if_pos h4]
  · intro st hst h4
    simp only [workerFetchPlaylist, hst]
    rw [if_neg (by omega)]
  · intro hst
    simp only [workerFetchPlaylist, hst]

theorem C4_worker_refresh_on_http_error_witness :
    workerFetchPlaylist (Except.error ⟨some 403, "403 Client Error"⟩ : Except StreamErrInfo Nat)
        (Except.error (RefreshError.streamError "session ended"))
      = (Except.error (WorkerError.refreshFailed (RefreshError.streamError "session ended")), 1) ∧
    workerFetchPlaylist (Except.error ⟨some 403, "403 Client Error"⟩ : Except StreamErrInfo Nat)
        (Except.ok ())
      = (Except.error (WorkerError.stream ⟨some 403, "403 Client Error"⟩), 1) ∧
    workerFetchPlaylist (Except.error ⟨some 304, "redirect"⟩ : Except StreamErrInfo Nat)
        (Except.ok ())
      = (Except.error (WorkerError.stream ⟨some 304, "redirect"⟩), 0) := by
  refine ⟨?_, ?_, ?_⟩
  · exact (C4_worker_refresh_on_http_error Nat ⟨some 403, "403 Client Error"⟩
      (Except.error (RefreshError.streamError "session ended"))).1 403 rfl (by decide)
  · exact (C4_worker_refresh_on_http_error Nat ⟨some 403, "403 Client Error"⟩
      (Except.ok ())).1 403 rfl (by decide)
  · exact (C4_worker_refresh_on_http_error Nat ⟨some 304, "redirect"⟩
      (Except.ok ())).2.1 304 rfl (by decide)

/-- C5: refresh_playlist raises a stream error carrying the API message
when the live-detail outcome is the error variant, and raises the fixed
stream error when the status is not OPEN or the media list is absent; in
each of these cases the stored url is unchanged. -/
theorem C5_refresh_error_paths (url : List Char) (resolve : String → List Char) :
    (∀ msg, refreshPlaylist url (ApiOutcome.error msg) resolve
        = Except.error (RefreshError.streamError msg) ∧
      refreshResultUrl url (ApiOutcome.error msg) resolve = url) ∧
    (∀ p : LiveDetailPayload, p.2.1 ≠ "OPEN" →
      refreshPlaylist url (ApiOutcome.dataSuccess p) resolve
          = Except.error (RefreshError.streamError refreshErrMsg) ∧
        refreshResultUrl url (ApiOutcome.dataSuccess p) resolve = url) ∧
    (∀ p : LiveDetailPayload, p.1 = none →
      refreshPlaylist url (ApiOutcome.dataSuccess p) resolve
          = Except.error (RefreshError.streamError refreshErrMsg) ∧
        refreshResultUrl url (ApiOutcome.dataSuccess p) resolve = url) := by
  refine ⟨fun msg => ⟨rfl, rfl⟩, ?_, ?_⟩
  · intro p hst
    obtain ⟨media, status, lid, ch, cat, title, adult⟩ := p
    have he : refreshPlaylist url
        (ApiOutcome.dataSuccess (media, status, lid, ch, cat, title, adult)) resolve
        = Except.error (RefreshError.streamError refreshErrMsg) := by
      simp only [refreshPlaylist]
      rw [if_pos (Or.inl hst)]
    exact ⟨he, by unfold refreshResultUrl; rw [he]⟩
  · intro p hmed
    obtain ⟨media, status, lid, ch, cat, title, adult⟩ := p
    have he : refreshPlaylist url
        (ApiOutcome.dataSuccess (media, status, lid, ch, cat, title, adult)) resolve
        = Except.error (RefreshError.streamError refreshErrMsg) := by
      simp only [refreshPlaylist]
      rw [if_pos (Or.inr hmed)]
    exact ⟨he, by unfold refreshResultUrl; rw [he]⟩

theorem C5_refresh_error_paths_witness :
    refreshPlaylist "https://h/t/f".data (ApiOutcome.error "boom") (fun _ => [])
      = Except.error (RefreshError.streamError "boom") ∧
    refreshPlaylist "https://h/t/f".data
        (ApiOutcome.dataSuccess (some [], "CLOSE", 1, "n", none, none, false)) (fun _ => [])
      = Except.error (RefreshError.streamError refreshErrMsg) ∧
    refreshResultUrl "https://h/t/f".data
        (ApiOutcome.dataSuccess (none, "OPEN", 1, "n", none, none, false)) (fun _ => [])
      = "https://h/t/f".data := by
  have h := C5_refresh_error_paths "https://h/t/f".data (fun _ => [])
  exact ⟨(h.1 "boom").1,
    (h.2.1 (some [], "CLOSE", 1, "n", none, none, false) (by decide)).1,
    (h.2.2 (none, "OPEN", 1, "n", none, none, false) rfl).2⟩

/-- C6: a url whose first expiry match is the parameter exp followed by
the digit run ds yields exactly the decimal value of ds; a url with no
expiry never triggers a refresh through the url accessor, whatever the
time and API outcome; when the expiry e is present the accessor performs
the refresh exactly when now is at or past e minus the three hour
window, and returns the possibly updated url. -/
theorem C6_expiry_and_refresh_window (url : List Char) :
    (∀ pre ds rest, url = pre ++ (expPat ++ (ds ++ rest)) → ds ≠ [] →
      (∀ c, c ∈ ds → isDigitChar c = true) → headNotDigit rest = true →
      (∀ k, k < pre.length → expMatchAt (List.drop k url) = false) →
      expSearch url = some (digitsVal ds)) ∧
    (expSearch url = none →
      ∀ now api resolve, urlAccessor now url api resolve = Except.ok url) ∧
    (∀ e, expSearch url = some e → ∀ now api resolve,
      urlAccessor now url api resolve =
        if (e : Int) - (refreshBefore : Int) ≤ now then refreshPlaylist url api resolve
        else Except.ok url) := by
  refine ⟨?_, ?_, ?_⟩
  · intro pre ds rest hurl hds hdig hrest hfirst
    subst hurl
    exact expSearch_at pre ds rest hds hdig hrest hfirst
  · intro hnone now api resolve
    simp [urlAccessor, shouldRefresh, hnone]
  · intro e he now api resolve
    by_cases hc : (e : Int) - (refreshBefore : Int) ≤ now
    · simp [urlAccessor, shouldRefresh, he, hc]
    · simp [urlAccessor, shouldRefresh, he, hc]

theorem C6_expiry_and_refresh_window_witness :
    expSearch "https://cdn/abc/p.m3u8?exp=1000".data = some (digitsVal "1000".data) ∧
    urlAccessor 999999997 "https://cdn/abc/p.m3u8?exp=1000".data (ApiOutcome.error "boom")
        (fun _ => []) = Except.error (RefreshError.streamError "boom") := by
  have h := C6_expiry_and_refresh_window "https://cdn/abc/p.m3u8?exp=1000".data
  have h1 : expSearch "https://cdn/abc/p.m3u8?exp=1000".data = some (digitsVal "1000".data) :=
    h.1 "https://cdn/abc/p.m3u8?".data "1000".data [] (by decide) (by decide) (by decide)
      (by decide) (by decide)
  refine ⟨h1, ?_⟩
  rw [h.2.2 (digitsVal "1000".data) h1 999999997 (ApiOutcome.error "boom") (fun _ => []),
    if_pos (by decide)]
  rfl

/-- C7: a channel RESULT of -6 produces the login-required error message
and no streams; any RESULT other than 1 produces no streams; a stream
map is only ever produced when RESULT is 1. -/
theorem C7_result_gate (c : ChannelInfo) (getHls : String → Option String) :
    (c.RESULT = -6 → afreecaChannelStreams c getHls = AfreecaOutcome.errorMsg "Login required") ∧
    (c.RESULT ≠ 1 → ∀ ss, afreecaChannelStreams c getHls ≠ AfreecaOutcome.streams ss) ∧
    (∀ ss, afreecaChannelStreams c getHls = AfreecaOutcome.streams ss → c.RESULT = 1) := by
  refine ⟨?_, ?_, ?_⟩
  · intro h
    unfold afreecaChannelStreams
    rw [if_pos h]
  · intro h ss
    unfold afreecaChannelStreams
    by_cases h6 : c.RESULT = -6
    · rw [if_pos h6]
      simp
    · rw [if_neg h6, if_pos h]
      simp
  · intro ss h
    by_contra h1
    revert h
    unfold afreecaChannelStreams
    by_cases h6 : c.RESULT = -6
    · rw [if_pos h6]
      simp
    · rw [if_neg h6, if_pos h1]
      simp

theorem C7_result_gate_witness :
    afreecaChannelStreams ⟨-6, none, none, none, none, none, none, none⟩ (fun _ => none)
      = AfreecaOutcome.errorMsg "Login required" ∧
    afreecaChannelStreams ⟨0, none, none, none, none, none, none, none⟩ (fun _ => none)
      ≠ AfreecaOutcome.streams [] :=
  ⟨(C7_result_gate ⟨-6, none, none, none, none, none, none, none⟩ (fun _ => none)).1 rfl,
    (C7_result_gate ⟨0, none, none, none, none, none, none, none⟩ (fun _ => none)).2.1
      (by decide) []⟩

/-- C8: the bstart_time re-extraction block after the early return of the
live-check branch is dead: the result of the tail of _get_streams is the
same for every function in the dead position, with live_check_only true
the tail returns early with the state unchanged, and with it false the
dead position is never entered and the channel processing runs. -/
theorem C8_dead_block_unreachable (lco : Bool) (c : ChannelInfo)
    (getHls : String → Option String) (st : AfState) (reMatch : Option String) :
    (∀ dead dead2 : AfState → Except EarlyRet AfState,
      getStreamsTail dead lco c getHls st = getStreamsTail dead2 lco c getHls st) ∧
    (lco = true → getStreamsTail (deadBstartBlock reMatch) lco c getHls st
      = (st, AfreecaOutcome.noResult)) ∧
    (lco = false → getStreamsTail (deadBstartBlock reMatch) lco c getHls st
      = (st, afreecaChannelStreams c getHls)) := by
  refine ⟨?_, ?_, ?_⟩
  · intro dead dead2
    cases lco <;> rfl
  · intro h
    subst h
    rfl
  · intro h
    subst h
    rfl

theorem C8_dead_block_unreachable_witness :
    getStreamsTail (deadBstartBlock none) true
        ⟨1, none, some "7", some "r", none, none, none, some []⟩ (fun _ => none) ⟨none, []⟩
      = (⟨none, []⟩, AfreecaOutcome.noResult) :=
  (C8_dead_block_unreachable true ⟨1, none, some "7", some "r", none, none, none, some []⟩
    (fun _ => none) ⟨none, []⟩ none).2.1 rfl

/-- C9: when the live detail reports an OPEN session with a nonempty
media list containing no descriptor whose protocol and id are both HLS,
refresh_playlist returns without raising and without touching the url,
and the url accessor then returns the stale url at every time. -/
theorem C9_no_hls_descriptor (url : List Char) (resolve : String → List Char)
    (ms : MediaList) (lid : Int) (ch : String) (cat title : Option String) (adult : Bool)
    (_hne : ms ≠ []) (hfind : findHLS ms = none) :
    refreshPlaylist url (ApiOutcome.dataSuccess (some ms, "OPEN", lid, ch, cat, title, adult))
        resolve = Except.ok url ∧
    (∀ now, urlAccessor now url
        (ApiOutcome.dataSuccess (some ms, "OPEN", lid, ch, cat, title, adult)) resolve
      = Except.ok url) := by
  have he : refreshPlaylist url
      (ApiOutcome.dataSuccess (some ms, "OPEN", lid, ch, cat, title, adult)) resolve
      = Except.ok url := by
    simp only [refreshPlaylist]
    rw [if_neg (by simp), hfind]
  refine ⟨he, fun now => ?_⟩
  unfold urlAccessor
  by_cases hr : shouldRefresh now url = true
  · rw [if_pos hr]
    exact he
  · rw [if_neg hr]

theorem C9_no_hls_descriptor_witness :
    refreshPlaylist "https://h/t/f?exp=1".data
        (ApiOutcome.dataSuccess
          (some [("LLHLS", "LLHLS", "https://x/l.m3u8")], "OPEN", 1, "n", none, none, false))
        (fun _ => []) = Except.ok "https://h/t/f?exp=1".data ∧
    urlAccessor 99999 "https://h/t/f?exp=1".data
        (ApiOutcome.dataSuccess
          (some [("LLHLS", "LLHLS", "https://x/l.m3u8")], "OPEN", 1, "n", none, none, false))
        (fun _ => []) = Except.ok "https://h/t/f?exp=1".data := by
  have h := C9_no_hls_descriptor "https://h/t/f?exp=1".data (fun _ => [])
    [("LLHLS", "LLHLS", "https://x/l.m3u8")] 1 "n" none none false (by decide) (by decide)
  exact ⟨h.1, h.2 99999⟩

/-- C10: a segment whose uri contains the substring preloading is always
filtered out; any other segment gets the base writer decision. -/
theorem C10_preloading_filter (base : Segment → Bool) (s : Segment) :
    (containsSub "preloading".data s.uri.data = true → shouldFilterSegment base s = true) ∧
    (containsSub "preloading".data s.uri.data = false → shouldFilterSegment base s = base s) := by
  constructor
  · intro h
    simp [shouldFilterSegment, h]
  · intro h
    simp [shouldFilterSegment, h]

theorem C10_preloading_filter_witness :
    shouldFilterSegment (fun _ => false) ⟨"https://x/preloading-5.ts"⟩ = true ∧
    shouldFilterSegment (fun _ => false) ⟨"https://x/media-5.ts"⟩ = false := by
  refine ⟨(C10_preloading_filter (fun _ => false) ⟨"https://x/preloading-5.ts"⟩).1 (by decide), ?_⟩
  exact (C10_preloading_filter (fun _ => false) ⟨"https://x/media-5.ts"⟩).2 (by decide)
